import Mathlib

/-!
Verification of the TBS1000 oscilloscope waveform pipeline
(`src/YorkUphysLab/Tektronix/TBS1000.py`): acquisition scaling,
phase alignment and waveform mixing, shallowly embedded over `ℚ`.
Machine floats are modelled as exact rationals; Python exceptions as an
explicit outcome type; the instrument as a record of its query responses.
-/

namespace TBS

/-- Python errors that the modelled methods can raise. -/
inductive PyError where
  | valueError : String → PyError
  | attributeError : PyError
  | zeroDivisionError : PyError
  deriving DecidableEq, Repr

/-- Outcome of a Python call: a normal return value or a raised exception. -/
inductive PyOutcome (α : Type) where
  | ret : α → PyOutcome α
  | raised : PyError → PyOutcome α
  deriving DecidableEq, Repr

/-- A call's outcome together with the instrument commands it sent
(`inst.write` / `inst.query` arguments, in order) and its log messages. -/
structure PyRun (α : Type) where
  out : PyOutcome α
  commands : List String
  logs : List String
  deriving DecidableEq, Repr

/-- The instrument behind the VISA link, modelled by the responses it
gives to the queries `get_period` and `get_data` send. -/
structure Instrument where
  /-- response to `wfmpre:nr_pt?` (record length). -/
  nr_pt : ℕ
  /-- response to `curve?`: raw signed byte samples. -/
  curve : List ℤ
  /-- response to `wfmpre:xincr?` (seconds per sample). -/
  xincr : ℚ
  /-- response to `wfmpre:xzero?` (time-axis origin, seconds). -/
  xzero : ℚ
  /-- response to `wfmpre:ymult?` (volts per level). -/
  ymult : ℚ
  /-- response to `wfmpre:yzero?` (reference voltage). -/
  yzero : ℚ
  /-- response to `wfmpre:yoff?` (reference position, levels). -/
  yoff : ℚ
  /-- response to `*esr?` (event status register). -/
  esr : ℕ
  /-- response to `allev?` (event message queue). -/
  allev : String
  /-- response to `MEASUrement:IMMed:VALue?` (measured period, seconds). -/
  measured_period : ℚ
  deriving DecidableEq, Repr

/-- The `TBS1000` object's state: the `is_open` flag and the `inst`
handle (`none` models Python `self.inst = None`). -/
structure TBS1000 where
  is_open : Bool
  inst : Option Instrument
  deriving DecidableEq, Repr

/-- `TBS1000.is_connected`. -/
def is_connected (s : TBS1000) : Bool := s.is_open

/-- Python `int()` applied to a rational: truncation toward zero. -/
def pyint (q : ℚ) : ℤ := if 0 ≤ q then ⌊q⌋ else ⌈q⌉

/-- The second component of Python `divmod(x, y)`: the floor-convention
remainder `x - y * ⌊x / y⌋`. -/
def pymod (x y : ℚ) : ℚ := x - y * ⌊x / y⌋

/-- Python slice `xs[:j]` for a possibly negative bound `j`. -/
def pySliceUpTo (xs : List ℚ) (j : ℤ) : List ℚ :=
  if 0 ≤ j then xs.take j.toNat else xs.take (xs.length - (-j).toNat)

/-- Python slice `xs[k:]` for a possibly negative bound `k`. -/
def pySliceFrom (xs : List ℚ) (k : ℤ) : List ℚ :=
  if 0 ≤ k then xs.drop k.toNat else xs.drop (xs.length - (-k).toNat)

/-- `np.linspace(start, stop, num, endpoint=False)`:
`num` points `start + i * (stop - start) / num`. -/
def linspace (start stop : ℚ) (num : ℕ) : List ℚ :=
  (List.range num).map fun i : ℕ => start + (i : ℚ) * ((stop - start) / num)

/-- Raw capture data as retrieved inside `get_data`: the binary sample
buffer plus the five scaling constants and the record length. -/
structure RawCapture where
  samples : List ℤ
  record_length : ℕ
  time_increment : ℚ
  time_zero : ℚ
  volts_per_level : ℚ
  volt_zero_reference : ℚ
  level_zero_reference : ℚ
  deriving DecidableEq, Repr

/-- The scaling stage of `get_data` (lines 193-198): time axis by
`np.linspace` over `[tstart, tstart + total_time)` scaled to ms, voltage
axis by the affine transform `(x - yoff) * ymult + yzero`, and the total
capture time `xincr * record`. -/
def scale (r : RawCapture) : List ℚ × List ℚ × ℚ :=
  let total_time := r.time_increment * (r.record_length : ℚ)
  let tstop := r.time_zero + total_time
  let scaled_time := (linspace r.time_zero tstop r.record_length).map (· * 1000)
  let scaled_wave := r.samples.map fun x : ℤ =>
    ((x : ℚ) - r.level_zero_reference) * r.volts_per_level + r.volt_zero_reference
  (scaled_time, scaled_wave, total_time)

/-- `TBS1000.get_period`: checks the channel first (raising `ValueError`
otherwise), then talks to the instrument handle; a `None` handle raises
`AttributeError` at the first `inst.write`. There is no connectivity
check. -/
def get_period (s : TBS1000) (channel : ℤ) : PyRun ℚ :=
  if channel = 1 ∨ channel = 2 then
    match s.inst with
    | none => ⟨.raised .attributeError, [], []⟩
    | some i =>
      ⟨.ret i.measured_period,
       ["MEASUrement:IMMed:TYPE PERiod",
        "MEASUrement:IMMed:SOUrce CH" ++ toString channel,
        "MEASUrement:IMMed:VALue?"], []⟩
  else ⟨.raised (.valueError "Channel must be 1 or 2"), [], []⟩

/-- The instrument-command transcript of a successful `get_data` call. -/
def getDataCommands (channel : ℤ) (record : ℕ) : List String :=
  ["header 0", "data:encdg RIBINARY", "data:source CH" ++ toString channel,
   "data:start 1", "wfmpre:nr_pt?", "data:stop " ++ toString record,
   "wfmpre:byt_nr 1", "acquire:state 0", "acquire:stopafter SEQUENCE",
   "acquire:state 1", "curve?", "wfmpre:xincr?", "wfmpre:xzero?",
   "wfmpre:ymult?", "wfmpre:yzero?", "wfmpre:yoff?", "*esr?", "allev?"]

/-- `TBS1000.get_data`: returns `none` if not connected, raises
`ValueError` on a channel outside {1, 2}, otherwise performs the binary
transfer, logs (only) any non-zero event-status register and non-empty
event queue, and returns the scaled time/voltage/total-time triple. -/
def get_data (s : TBS1000) (channel : ℤ) :
    PyRun (Option (List ℚ × List ℚ × ℚ)) :=
  if ¬ is_connected s then ⟨.ret none, [], []⟩
  else if channel = 1 ∨ channel = 2 then
    match s.inst with
    | none => ⟨.raised .attributeError, [], []⟩
    | some i =>
      let esrLog :=
        if i.esr ≠ 0 then ["event status register: " ++ toString i.esr] else []
      let allevLog :=
        if ¬ ("No events".toList <:+: i.allev.toList) then
          ["all event messages: " ++ i.allev] else []
      ⟨.ret (some (scale ⟨i.curve, i.nr_pt, i.xincr, i.xzero, i.ymult,
                          i.yzero, i.yoff⟩)),
       getDataCommands channel i.nr_pt, esrLog ++ allevLog⟩
  else ⟨.raised (.valueError "Channel must be 1 or 2"), [], []⟩

/-- `int(period/total_time * len(waveform_2))` from `phase_shift`.
Only evaluated on the non-error path: `phase_shift` raises
`ZeroDivisionError` when `total_time = 0`, exactly where Python's
`period/total_time` would, so here the division is an ordinary exact
rational quotient. -/
def samples_in_period (period total_time : ℚ) (n : ℕ) : ℤ :=
  pyint (period / total_time * (n : ℚ))

/-- `int((phase / 360) * samples_in_period)` from `phase_shift`,
with `phase` already reduced modulo 360. -/
def shift_samples (period total_time phase : ℚ) (n : ℕ) : ℤ :=
  pyint (phase / 360 * (samples_in_period period total_time n : ℚ))

/-- `TBS1000.phase_shift`: reduces the phase via `divmod(·, 360)`,
obtains the period of channel 2 from `get_period` (whose exception, if
any, propagates), raises `ZeroDivisionError` if `total_time` is zero
(Python's `period/total_time` on line 221), otherwise computes the
sample shift and either returns the inputs unchanged (shift 0) or the
slices `scaled_time[:-shift]`, `waveform_1[:-shift]`,
`waveform_2[shift:]`. -/
def phase_shift (s : TBS1000) (scaled_time waveform_1 waveform_2 : List ℚ)
    (total_time phase_deg : ℚ) : PyRun (List ℚ × List ℚ × List ℚ) :=
  let phase := pymod phase_deg 360
  let pr := get_period s 2
  match pr.out with
  | .raised e => ⟨.raised e, pr.commands, pr.logs⟩
  | .ret period =>
    if total_time = 0 then ⟨.raised .zeroDivisionError, pr.commands, pr.logs⟩
    else
      let shift := shift_samples period total_time phase waveform_2.length
      if shift = 0 then
        ⟨.ret (scaled_time, waveform_1, waveform_2), pr.commands, pr.logs⟩
      else
        ⟨.ret (pySliceUpTo scaled_time (-(1 * shift)),
               pySliceUpTo waveform_1 (-(1 * shift)),
               pySliceFrom waveform_2 shift), pr.commands, pr.logs⟩

/-- `TBS1000.multiply_waveforms`: logs an error and returns `None` on a
length mismatch, otherwise the elementwise product. -/
def multiply_waveforms (waveform_1 waveform_2 : List ℚ) :
    Option (List ℚ) × List String :=
  if waveform_1.length ≠ waveform_2.length then
    (none, ["Waveforms must be the same length: " ++
            toString waveform_1.length ++ " != " ++ toString waveform_2.length])
  else (some (List.zipWith (· * ·) waveform_1 waveform_2), [])

end TBS

namespace TBS

/-! ### Helper lemmas -/

theorem pyint_of_nonneg {q : ℚ} (h : 0 ≤ q) : pyint q = ⌊q⌋ := if_pos h

theorem pyint_nonneg {q : ℚ} (h : 0 ≤ q) : 0 ≤ pyint q := by
  rw [pyint_of_nonneg h]
  exact Int.floor_nonneg.mpr h

theorem pymod_eq_mul_fract (x y : ℚ) (hy : y ≠ 0) :
    pymod x y = y * Int.fract (x / y) := by
  rw [pymod, Int.fract, mul_sub, mul_comm y (x / y), div_mul_cancel₀ x hy]

theorem pymod_nonneg (x y : ℚ) (hy : 0 < y) : 0 ≤ pymod x y := by
  rw [pymod_eq_mul_fract x y hy.ne']
  exact mul_nonneg hy.le (Int.fract_nonneg _)

theorem pymod_lt (x y : ℚ) (hy : 0 < y) : pymod x y < y := by
  rw [pymod_eq_mul_fract x y hy.ne']
  calc y * Int.fract (x / y) < y * 1 :=
        (mul_lt_mul_left hy).mpr (Int.fract_lt_one _)
    _ = y := mul_one y

theorem samples_in_period_nonneg {period total_time : ℚ} (n : ℕ)
    (hp : 0 ≤ period) (ht : 0 < total_time) :
    0 ≤ samples_in_period period total_time n :=
  pyint_nonneg (mul_nonneg (div_nonneg hp ht.le) n.cast_nonneg)

theorem shift_samples_nonneg {period total_time phase : ℚ} (n : ℕ)
    (hp : 0 ≤ period) (ht : 0 < total_time) (hph : 0 ≤ phase) :
    0 ≤ shift_samples period total_time phase n := by
  refine pyint_nonneg (mul_nonneg (div_nonneg hph (by norm_num)) ?_)
  exact_mod_cast samples_in_period_nonneg n hp ht

theorem get_period_some (s : TBS1000) (i : Instrument) (ch : ℤ)
    (hs : s.inst = some i) (hch : ch = 1 ∨ ch = 2) :
    (get_period s ch).out = .ret i.measured_period := by
  rw [get_period, if_pos hch, hs]

/-! ### C5 / C6: waveform mixing -/

/-- C5: for every pair of equal-length input sequences (including lengths
0 and 1), `multiply_waveforms` returns a sequence of the same length whose
i-th element is the product of the inputs' i-th elements; in particular
`mix([1,2,3],[4,5,6]) = [4,10,18]`. -/
theorem multiply_waveforms_spec (a b : List ℚ) (h : a.length = b.length) :
    (∃ r : List ℚ, (multiply_waveforms a b).1 = some r ∧ r.length = a.length ∧
      ∀ (i : ℕ) (x y : ℚ), a[i]? = some x → b[i]? = some y →
        r[i]? = some (x * y)) ∧
    (multiply_waveforms ([1, 2, 3] : List ℚ) [4, 5, 6]).1 = some [4, 10, 18] := by
  constructor
  · refine ⟨List.zipWith (· * ·) a b, ?_, ?_, ?_⟩
    · rw [multiply_waveforms, if_neg (by simp [h])]
    · simp [List.length_zipWith, h]
    · intro i x y hx hy
      simp [List.getElem?_zipWith, hx, hy]
  · norm_num [multiply_waveforms, List.zipWith]

theorem multiply_waveforms_spec_witness :
    ∃ r : List ℚ, (multiply_waveforms [2, 3] [5, 7]).1 = some r ∧
      r.length = 2 ∧ r[0]? = some (2 * 5) := by
  obtain ⟨⟨r, hr, hlen, helt⟩, -⟩ :=
    multiply_waveforms_spec [2, 3] [5, 7] (by simp)
  exact ⟨r, hr, hlen, helt 0 2 5 (by simp) (by simp)⟩

/-- C6: mixing two sequences of unequal length produces no result (the
call returns `None`) and reports a length-mismatch error. -/
theorem multiply_waveforms_mismatch (a b : List ℚ) (h : a.length ≠ b.length) :
    (multiply_waveforms a b).1 = none ∧ (multiply_waveforms a b).2 ≠ [] := by
  rw [multiply_waveforms, if_pos h]
  exact ⟨rfl, by simp⟩

theorem multiply_waveforms_mismatch_witness :
    (multiply_waveforms [1, 2] [4, 5, 6]).1 = none ∧
    (multiply_waveforms [1, 2] [4, 5, 6]).2 ≠ [] :=
  multiply_waveforms_mismatch [1, 2] [4, 5, 6] (by decide)

/-! ### C2 / C3: the scaling stage -/

theorem scale_time_eq (r : RawCapture) (hn : r.record_length ≠ 0) :
    (scale r).1 = (List.range r.record_length).map
      (fun i : ℕ => (r.time_zero + (i : ℚ) * r.time_increment) * 1000) := by
  have hc : (r.time_zero + r.time_increment * (r.record_length : ℚ) - r.time_zero)
      / (r.record_length : ℚ) = r.time_increment := by
    rw [add_sub_cancel_left]
    exact mul_div_cancel_right₀ _ (Nat.cast_ne_zero.mpr hn)
  show (linspace r.time_zero
      (r.time_zero + r.time_increment * (r.record_length : ℚ))
      r.record_length).map (· * 1000) = _
  rw [linspace, List.map_map]
  refine List.map_congr_left fun i _ => ?_
  show (r.time_zero + (i : ℚ) *
      ((r.time_zero + r.time_increment * (r.record_length : ℚ) - r.time_zero)
        / (r.record_length : ℚ))) * 1000 = _
  rw [hc]

/-- C2 counterexample: the claim asserts a strictly increasing time axis
for every capture whose five scaling constants are merely finite and
non-NaN; with `time_increment = 0` (finite, non-NaN) and two samples the
scaling stage produces the constant time axis `[0, 0]`, which is not
strictly increasing. -/
theorem scale_time_not_strictly_increasing :
    ¬ List.Chain' (· < ·) (scale ⟨[1, 2], 2, 0, 0, 1, 0, 0⟩).1 := by
  norm_num [scale, linspace, List.range_succ, List.chain'_cons]

/-- C2 amended: for every valid `RawCapture` with `record_length = N > 0`
and, additionally, `time_increment > 0`, the scaling stage produces time
and voltage sequences of length exactly `N`, with
`time_ms[i] = (time_zero + i * time_increment) * 1000`, so
`time_ms[0] = time_zero * 1000`, `time_ms` strictly increasing, and every
time value strictly below the nominal end point
`(time_zero + total_time_s) * 1000` (half-open interval). -/
theorem scale_time_axis (r : RawCapture) (n : ℕ) (hn : r.record_length = n)
    (hpos : 0 < n) (hlen : r.samples.length = n)
    (hinc : 0 < r.time_increment) :
    ((scale r).1.length = n ∧ (scale r).2.1.length = n) ∧
    (∀ i : ℕ, i < n → (scale r).1[i]? =
      some ((r.time_zero + (i : ℚ) * r.time_increment) * 1000)) ∧
    (scale r).1[0]? = some (r.time_zero * 1000) ∧
    List.Chain' (· < ·) (scale r).1 ∧
    (∀ x ∈ (scale r).1,
      x < (r.time_zero + r.time_increment * (n : ℚ)) * 1000) := by
  have hne : r.record_length ≠ 0 := by omega
  have ht := scale_time_eq r hne
  have helt : ∀ i : ℕ, i < n → (scale r).1[i]? =
      some ((r.time_zero + (i : ℚ) * r.time_increment) * 1000) := by
    intro i hi
    rw [ht, List.getElem?_map, List.getElem?_range (hn ▸ hi)]
    rfl
  refine ⟨⟨?_, ?_⟩, helt, ?_, ?_, ?_⟩
  · rw [ht, List.length_map, List.length_range, hn]
  · show (r.samples.map fun x : ℤ => ((x : ℚ) - r.level_zero_reference) *
        r.volts_per_level + r.volt_zero_reference).length = n
    rw [List.length_map, hlen]
  · have h0 := helt 0 hpos
    simpa using h0
  · rw [ht, List.chain'_iff_pairwise]
    refine (List.pairwise_lt_range _).map _ ?_
    intro a b hab
    have hmul : (a : ℚ) * r.time_increment < (b : ℚ) * r.time_increment :=
      (mul_lt_mul_right hinc).mpr (by exact_mod_cast hab)
    have hlt : r.time_zero + (a : ℚ) * r.time_increment <
        r.time_zero + (b : ℚ) * r.time_increment := by linarith
    exact (mul_lt_mul_right (by norm_num)).mpr hlt
  · intro x hx
    rw [ht] at hx
    obtain ⟨i, hi, rfl⟩ := List.mem_map.mp hx
    have hilt : i < n := hn ▸ List.mem_range.mp hi
    have hmul : (i : ℚ) * r.time_increment < (n : ℚ) * r.time_increment :=
      (mul_lt_mul_right hinc).mpr (by exact_mod_cast hilt)
    have hlt : r.time_zero + (i : ℚ) * r.time_increment <
        r.time_zero + r.time_increment * (n : ℚ) := by
      have hcomm : (n : ℚ) * r.time_increment = r.time_increment * (n : ℚ) :=
        mul_comm _ _
      linarith
    exact (mul_lt_mul_right (by norm_num)).mpr hlt

theorem scale_time_axis_witness :
    (scale ⟨[0, 10, 20, -10], 4, 1/1000, 0, 1/100, 0, 0⟩).1.length = 4 ∧
    List.Chain' (· < ·)
      (scale ⟨[0, 10, 20, -10], 4, 1/1000, 0, 1/100, 0, 0⟩).1 := by
  obtain ⟨⟨h1, -⟩, -, -, h4, -⟩ :=
    scale_time_axis ⟨[0, 10, 20, -10], 4, 1/1000, 0, 1/100, 0, 0⟩ 4
      rfl (by norm_num) (by simp) (by norm_num)
  exact ⟨h1, h4⟩

/-- C3: the scaling stage computes
`voltage[i] = (samples[i] - level_zero_reference) * volts_per_level +
volt_zero_reference` and `total_time_s = time_increment * record_length`;
on the concrete capture `([0,10,20,-10], 4, 1e-3, 0, 0.01, 0, 0)` it
yields `time_ms = [0,1,2,3]`, `voltage = [0, 0.1, 0.2, -0.1]` and
`total_time_s = 0.004`. -/
theorem scale_voltage_total (r : RawCapture) :
    (∀ (i : ℕ) (x : ℤ), r.samples[i]? = some x →
      (scale r).2.1[i]? = some (((x : ℚ) - r.level_zero_reference) *
        r.volts_per_level + r.volt_zero_reference)) ∧
    (scale r).2.2 = r.time_increment * (r.record_length : ℚ) ∧
    scale ⟨[0, 10, 20, -10], 4, 1/1000, 0, 1/100, 0, 0⟩ =
      ([0, 1, 2, 3], [0, 1/10, 1/5, -1/10], 1/250) := by
  refine ⟨?_, rfl, ?_⟩
  · intro i x hx
    show (r.samples.map fun x : ℤ => ((x : ℚ) - r.level_zero_reference) *
        r.volts_per_level + r.volt_zero_reference)[i]? = _
    rw [List.getElem?_map, hx]
    rfl
  · norm_num [scale, linspace, List.range_succ]

theorem scale_voltage_total_witness :
    (scale ⟨[5], 1, 1, 0, 2, 3, 1⟩).2.1[0]? =
      some (((5 : ℚ) - 1) * 2 + 3) :=
  (scale_voltage_total ⟨[5], 1, 1, 0, 2, 3, 1⟩).1 0 5 (by simp)

/-! ### C7: behaviour when the instrument link is not connected -/

/-- C7 counterexample: the claim says that while not connected,
`get_period` returns an absent result rather than raising; on the fresh
disconnected object (`is_open = false`, `inst = None`) the call
`get_period(1)` in fact raises (`AttributeError` at `self.inst.write`). -/
theorem get_period_disconnected_raises :
    (get_period ⟨false, none⟩ 1).out = .raised .attributeError := rfl

/-- C7 amended: while not connected, `get_data` returns an absent result
(`None`) rather than raising; `get_period`, however, performs no
connectivity check, and on a state with no instrument handle a
valid-channel call raises `AttributeError` instead of returning. -/
theorem not_connected_behaviour (s s2 : TBS1000) (ch ch2 : ℤ)
    (hs : s.is_open = false) (hs2 : s2.inst = none)
    (hch2 : ch2 = 1 ∨ ch2 = 2) :
    (get_data s ch).out = .ret none ∧
    (get_period s2 ch2).out = .raised .attributeError := by
  constructor
  · rw [get_data, if_pos]
    simp [is_connected, hs]
  · rw [get_period, if_pos hch2, hs2]

theorem not_connected_behaviour_witness :
    (get_data ⟨false, none⟩ 1).out = .ret none ∧
    (get_period ⟨false, none⟩ 1).out = .raised .attributeError :=
  not_connected_behaviour ⟨false, none⟩ ⟨false, none⟩ 1 1 rfl rfl (Or.inl rfl)

/-! ### C8: invalid channel fails fast -/

/-- C8: for every channel outside {1, 2}, `get_period` (in any state) and
`get_data` (when connected) raise the invalid-channel `ValueError` with no
instrument command having been sent. -/
theorem invalid_channel_fails_fast (s : TBS1000) (ch : ℤ)
    (hch : ¬ (ch = 1 ∨ ch = 2)) :
    ((get_period s ch).out = .raised (.valueError "Channel must be 1 or 2") ∧
     (get_period s ch).commands = []) ∧
    (s.is_open = true →
      (get_data s ch).out = .raised (.valueError "Channel must be 1 or 2") ∧
      (get_data s ch).commands = []) := by
  refine ⟨⟨?_, ?_⟩, fun hopen => ?_⟩
  · rw [get_period, if_neg hch]
  · rw [get_period, if_neg hch]
  · rw [get_data, if_neg (by simp [is_connected, hopen]), if_neg hch]
    exact ⟨rfl, rfl⟩

theorem invalid_channel_fails_fast_witness :
    ((get_period ⟨true, none⟩ 3).out =
        .raised (.valueError "Channel must be 1 or 2") ∧
     (get_period ⟨true, none⟩ 3).commands = []) ∧
    ((⟨true, none⟩ : TBS1000).is_open = true →
      (get_data ⟨true, none⟩ 3).out =
        .raised (.valueError "Channel must be 1 or 2") ∧
      (get_data ⟨true, none⟩ 3).commands = []) :=
  invalid_channel_fails_fast ⟨true, none⟩ 3 (by decide)

/-! ### C9: status-register anomalies are diagnostic only -/

/-- C9: once the binary transfer completes (connected state, valid
channel, instrument handle present), `get_data` returns the scaled
time/voltage/total-time triple, and the values of the event-status
register and of the event-message queue never change that outcome: they
cannot make the call fail or raise. -/
theorem get_data_status_diagnostic_only (i : Instrument) (ch : ℤ)
    (esr2 : ℕ) (ev2 : String) (hch : ch = 1 ∨ ch = 2) :
    (get_data ⟨true, some i⟩ ch).out =
      .ret (some (scale ⟨i.curve, i.nr_pt, i.xincr, i.xzero, i.ymult,
                         i.yzero, i.yoff⟩)) ∧
    (get_data ⟨true, some ⟨i.nr_pt, i.curve, i.xincr, i.xzero, i.ymult,
                           i.yzero, i.yoff, esr2, ev2,
                           i.measured_period⟩⟩ ch).out =
      (get_data ⟨true, some i⟩ ch).out := by
  constructor
  · rw [get_data, if_neg (by simp [is_connected]), if_pos hch]
  · rw [get_data, if_neg (by simp [is_connected]), if_pos hch,
        get_data, if_neg (by simp [is_connected]), if_pos hch]

theorem get_data_status_diagnostic_only_witness :
    (get_data ⟨true, some ⟨1, [7], 1, 0, 1, 0, 0, 32, "overload", 1⟩⟩ 1).out =
      .ret (some (scale ⟨[7], 1, 1, 0, 1, 0, 0⟩)) ∧
    (get_data ⟨true, some ⟨1, [7], 1, 0, 1, 0, 0, 0, "No events", 1⟩⟩ 1).out =
      (get_data ⟨true, some ⟨1, [7], 1, 0, 1, 0, 0, 32, "overload", 1⟩⟩ 1).out :=
  get_data_status_diagnostic_only ⟨1, [7], 1, 0, 1, 0, 0, 32, "overload", 1⟩
    1 0 "No events" (Or.inl rfl)

/-! ### C1 / C4 / C10: phase alignment -/

theorem phase_shift_eq (s : TBS1000) (i : Instrument) (t a b : List ℚ)
    (tt φ : ℚ) (hs : s.inst = some i) (htt : tt ≠ 0) :
    (phase_shift s t a b tt φ).out =
      if shift_samples i.measured_period tt (pymod φ 360) b.length = 0 then
        .ret (t, a, b)
      else
        .ret (pySliceUpTo t
                (-(1 * shift_samples i.measured_period tt (pymod φ 360) b.length)),
              pySliceUpTo a
                (-(1 * shift_samples i.measured_period tt (pymod φ 360) b.length)),
              pySliceFrom b
                (shift_samples i.measured_period tt (pymod φ 360) b.length)) := by
  have h := get_period_some s i 2 hs (Or.inr rfl)
  simp only [phase_shift, h, if_neg htt]
  by_cases hc : shift_samples i.measured_period tt (pymod φ 360) b.length = 0
  · rw [if_pos hc, if_pos hc]
  · rw [if_neg hc, if_neg hc]

/-- C1: on three equal-length inputs, with the period taken from the
channel-2 period measurement and the phase reduced modulo 360, the shift
is computed as `shift = ⌊phase/360 * ⌊period/total_time * n⌋⌋`; when the
shift is 0 the inputs are returned unchanged, otherwise the time axis and
first waveform lose exactly their last `shift` elements, the second
waveform loses exactly its first `shift` elements, and (for `shift < n`)
all three results have length `n - shift`. -/
theorem phase_shift_spec (i : Instrument) (t a b : List ℚ)
    (total_time phase_deg : ℚ) (n : ℕ)
    (ht : t.length = n) (ha : a.length = n) (hb : b.length = n)
    (hper : 0 ≤ i.measured_period) (htt : 0 < total_time) :
    samples_in_period i.measured_period total_time n =
      ⌊i.measured_period / total_time * (n : ℚ)⌋ ∧
    shift_samples i.measured_period total_time (pymod phase_deg 360) n =
      ⌊pymod phase_deg 360 / 360 *
        ((⌊i.measured_period / total_time * (n : ℚ)⌋ : ℤ) : ℚ)⌋ ∧
    (shift_samples i.measured_period total_time (pymod phase_deg 360) n = 0 →
      (phase_shift ⟨true, some i⟩ t a b total_time phase_deg).out =
        .ret (t, a, b)) ∧
    ∀ k : ℕ,
      shift_samples i.measured_period total_time (pymod phase_deg 360) n =
        (k : ℤ) → k ≠ 0 →
      (phase_shift ⟨true, some i⟩ t a b total_time phase_deg).out =
        .ret (t.take (n - k), a.take (n - k), b.drop k) ∧
      (k < n →
        (t.take (n - k)).length = n - k ∧
        (a.take (n - k)).length = n - k ∧
        (b.drop k).length = n - k) := by
  have hphase : 0 ≤ pymod phase_deg 360 := pymod_nonneg _ _ (by norm_num)
  have hsip : samples_in_period i.measured_period total_time n =
      ⌊i.measured_period / total_time * (n : ℚ)⌋ :=
    pyint_of_nonneg (mul_nonneg (div_nonneg hper htt.le) n.cast_nonneg)
  have hsip0 : 0 ≤ samples_in_period i.measured_period total_time n :=
    samples_in_period_nonneg n hper htt
  have hshift : shift_samples i.measured_period total_time
      (pymod phase_deg 360) n =
      ⌊pymod phase_deg 360 / 360 *
        ((samples_in_period i.measured_period total_time n : ℤ) : ℚ)⌋ :=
    pyint_of_nonneg (mul_nonneg (div_nonneg hphase (by norm_num))
      (by exact_mod_cast hsip0))
  refine ⟨hsip, by rw [hshift, hsip], ?_, ?_⟩
  · intro h0
    rw [phase_shift_eq _ i t a b total_time phase_deg rfl htt.ne', hb,
        if_pos h0]
  · intro k hk hk0
    have hkz : ¬ (shift_samples i.measured_period total_time
        (pymod phase_deg 360) n = 0) := by
      rw [hk]
      exact_mod_cast hk0
    constructor
    · rw [phase_shift_eq _ i t a b total_time phase_deg rfl htt.ne', hb,
          if_neg hkz, hk]
      have hneg : ¬ (0 ≤ -(1 * (k : ℤ))) := by omega
      rw [pySliceUpTo, if_neg hneg, pySliceUpTo, if_neg hneg,
          pySliceFrom, if_pos (by omega)]
      have e1 : t.length - (-(-(1 * (k : ℤ)))).toNat = n - k := by omega
      have e2 : a.length - (-(-(1 * (k : ℤ)))).toNat = n - k := by omega
      have e3 : ((k : ℤ)).toNat = k := by omega
      rw [e1, e2, e3]
    · intro hkn
      refine ⟨?_, ?_, ?_⟩ <;>
        simp [List.length_take, List.length_drop, ht, ha, hb]

theorem phase_shift_spec_witness :
    (phase_shift ⟨true, some ⟨5, [], 0, 0, 0, 0, 0, 0, "", 1/400⟩⟩
      [0, 1, 2, 3, 4] [1, 2, 3, 4, 5] [5, 4, 3, 2, 1] (1/200) 180).out =
      .ret (([0, 1, 2, 3, 4] : List ℚ).take 4,
            ([1, 2, 3, 4, 5] : List ℚ).take 4,
            ([5, 4, 3, 2, 1] : List ℚ).drop 1) := by
  have h := phase_shift_spec ⟨5, [], 0, 0, 0, 0, 0, 0, "", 1/400⟩
    [0, 1, 2, 3, 4] [1, 2, 3, 4, 5] [5, 4, 3, 2, 1] (1/200) 180 5
    (by simp) (by simp) (by simp) (by norm_num) (by norm_num)
  have hs : shift_samples (1/400) (1/200) (pymod 180 360) 5 = (1 : ℤ) := by
    have hp : pymod 180 360 = 180 := by rw [pymod]; norm_num
    rw [hp, shift_samples, samples_in_period]
    norm_num [pyint]
  exact (h.2.2.2 1 hs (by norm_num)).1

/-- C4: `phase_shift` reduces the phase to `[0, 360)` by modulo,
discarding the input's sign (`-90` wraps to `270`); with phase 0 and a
non-zero total time (so that the `period/total_time` division on
line 221 does not raise) the inputs are returned unchanged, and phase
360 behaves identically to phase 0. -/
theorem phase_reduction (s : TBS1000) (i : Instrument) (t a b : List ℚ)
    (tt : ℚ) (hs : s.inst = some i) (htt : tt ≠ 0) :
    (∀ φ : ℚ, 0 ≤ pymod φ 360 ∧ pymod φ 360 < 360) ∧
    pymod (-90) 360 = 270 ∧
    (phase_shift s t a b tt 0).out = .ret (t, a, b) ∧
    phase_shift s t a b tt 360 = phase_shift s t a b tt 0 ∧
    phase_shift s t a b tt (-90) = phase_shift s t a b tt 270 := by
  refine ⟨fun φ => ⟨pymod_nonneg φ 360 (by norm_num),
    pymod_lt φ 360 (by norm_num)⟩, ?_, ?_, ?_, ?_⟩
  · rw [pymod]; norm_num
  · have h0 : shift_samples i.measured_period tt (pymod 0 360) b.length = 0 := by
      have hp : pymod 0 360 = 0 := by rw [pymod]; norm_num
      rw [hp, shift_samples]
      norm_num [pyint]
    rw [phase_shift_eq s i t a b tt 0 hs htt, if_pos h0]
  · have h360 : pymod 360 360 = pymod 0 360 := by rw [pymod, pymod]; norm_num
    simp only [phase_shift, h360]
  · have h90 : pymod (-90) 360 = pymod 270 360 := by rw [pymod, pymod]; norm_num
    simp only [phase_shift, h90]

theorem phase_reduction_witness :
    pymod (-90) 360 = 270 ∧
    (phase_shift ⟨true, some ⟨1, [], 0, 0, 0, 0, 0, 0, "", 1⟩⟩
      [1] [2] [3] 1 0).out = .ret ([1], [2], [3]) := by
  have h := phase_reduction ⟨true, some ⟨1, [], 0, 0, 0, 0, 0, 0, "", 1⟩⟩
    ⟨1, [], 0, 0, 0, 0, 0, 0, "", 1⟩ [1] [2] [3] 1 rfl (by norm_num)
  exact ⟨h.2.1, h.2.2.1⟩

/-- C10: with a non-zero total time (so the `period/total_time` division
on line 221 does not raise), when the computed shift is at least the
(common) input length, `phase_shift` neither raises nor produces
negative-length output: all three returned sequences are empty. -/
theorem phase_shift_overshift (s : TBS1000) (i : Instrument)
    (t a b : List ℚ) (tt φ : ℚ) (n : ℕ) (hs : s.inst = some i)
    (htt : tt ≠ 0)
    (ht : t.length = n) (ha : a.length = n) (hb : b.length = n)
    (hge : (n : ℤ) ≤ shift_samples i.measured_period tt (pymod φ 360) n) :
    (phase_shift s t a b tt φ).out = .ret ([], [], []) := by
  rw [phase_shift_eq s i t a b tt φ hs htt, hb]
  by_cases hc : shift_samples i.measured_period tt (pymod φ 360) n = 0
  · rw [if_pos hc]
    rw [hc] at hge
    have ht0 : t = [] := List.eq_nil_of_length_eq_zero (by omega)
    have ha0 : a = [] := List.eq_nil_of_length_eq_zero (by omega)
    have hb0 : b = [] := List.eq_nil_of_length_eq_zero (by omega)
    rw [ht0, ha0, hb0]
  · rw [if_neg hc]
    have hpos : 0 < shift_samples i.measured_period tt (pymod φ 360) n := by
      omega
    have hneg : ¬ (0 ≤ -(1 * shift_samples i.measured_period tt
        (pymod φ 360) n)) := by omega
    rw [pySliceUpTo, if_neg hneg, pySliceUpTo, if_neg hneg,
        pySliceFrom, if_pos hpos.le]
    have e1 : t.length -
        (-(-(1 * shift_samples i.measured_period tt (pymod φ 360) n))).toNat
        = 0 := by omega
    have e2 : a.length -
        (-(-(1 * shift_samples i.measured_period tt (pymod φ 360) n))).toNat
        = 0 := by omega
    rw [e1, e2, List.take_zero, List.take_zero,
        List.drop_eq_nil_of_le (by omega)]

theorem phase_shift_overshift_witness :
    (phase_shift ⟨true, some ⟨2, [], 0, 0, 0, 0, 0, 0, "", 4⟩⟩
      [1, 2] [1, 2] [1, 2] 1 180).out = .ret ([], [], []) := by
  refine phase_shift_overshift ⟨true, some ⟨2, [], 0, 0, 0, 0, 0, 0, "", 4⟩⟩
    ⟨2, [], 0, 0, 0, 0, 0, 0, "", 4⟩ [1, 2] [1, 2] [1, 2] 1 180 2
    rfl (by norm_num) (by simp) (by simp) (by simp) ?_
  have hp : pymod 180 360 = 180 := by rw [pymod]; norm_num
  rw [hp, shift_samples, samples_in_period]
  norm_num [pyint]

end TBS
